import Mathlib

/-!
Verification development for the geometry-ingestion and interaction core of a
small WebGL viewer (an OBJ mesh loader and an arcball-style camera / scene-node
controller).

The JavaScript source is shallowly embedded:
* JavaScript numbers are modelled by `JSNum`: an exact rational together with
  the IEEE special values `+Infinity`, `-Infinity` and `NaN`.  Rational
  arithmetic replaces binary floating point (so rounding is exact), but the
  special-value propagation rules of JavaScript arithmetic, `Math.min`,
  `Math.max`, `parseFloat` and `parseInt` are reproduced faithfully.
  (`ℚ` has a single zero; the sign-of-zero distinction is irrelevant for the
  code paths modelled here, where the only zero divisors arise as `+0`.)
* Strings are Lean `String`s.  The JavaScript string operations used by the
  loader — `trim()`, `split(/\s+/)`, `split('\n')`, `split('/')`,
  `startsWith` — are modelled by structurally recursive functions on the
  character list (`trimCs`, `splitWs`, `splitOnChar`, `startsWithCs`), so that
  every definition evaluates by kernel reduction.  Whitespace is ASCII
  whitespace (space, tab, CR, LF), which covers the inputs of interest.
* The camera / node controller's calls into the glMatrix library
  (`vec3`/`mat4`) are embedded from the standard glMatrix implementations with
  column-major 16-entry matrices.  `Math.sqrt`, `Math.sin`, `Math.cos` have no
  rational counterpart and are supplied by an oracle parameter `MathOracle`;
  every theorem below holds for every oracle, and no theorem depends on the
  numeric value of a square root or a trigonometric function.
-/

/-- A JavaScript number: an exact rational, or one of the IEEE special values. -/
inductive JSNum where
  | num (q : ℚ)
  | posInf
  | negInf
  | nan
deriving DecidableEq, Repr

namespace JSNum

/-- JavaScript addition `a + b` on `JSNum` (NaN propagates, `∞ + -∞ = NaN`). -/
def jsAdd : JSNum → JSNum → JSNum
  | num a, num b => num (a + b)
  | num _, posInf => posInf
  | num _, negInf => negInf
  | posInf, num _ => posInf
  | negInf, num _ => negInf
  | posInf, posInf => posInf
  | negInf, negInf => negInf
  | posInf, negInf => nan
  | negInf, posInf => nan
  | _, _ => nan

/-- JavaScript subtraction `a - b` on `JSNum`. -/
def jsSub : JSNum → JSNum → JSNum
  | num a, num b => num (a - b)
  | num _, posInf => negInf
  | num _, negInf => posInf
  | posInf, num _ => posInf
  | negInf, num _ => negInf
  | posInf, negInf => posInf
  | negInf, posInf => negInf
  | posInf, posInf => nan
  | negInf, negInf => nan
  | _, _ => nan

/-- JavaScript division `a / b` on `JSNum`.  Division by the rational zero
follows the IEEE rules for `+0`: `0/0 = NaN`, `±x/0 = ±∞` (a `-0` divisor
cannot arise in the modelled code: the only zero divisor is `range/2` with
`range = max of nonnegative spans = +0`). -/
def jsDiv : JSNum → JSNum → JSNum
  | num a, num b =>
      if b = 0 then (if a = 0 then nan else if 0 < a then posInf else negInf)
      else num (a / b)
  | num _, posInf => num 0
  | num _, negInf => num 0
  | posInf, num b => if b < 0 then negInf else posInf
  | negInf, num b => if b < 0 then posInf else negInf
  | _, _ => nan

/-- JavaScript `Math.min` (NaN-absorbing). -/
def jsMin : JSNum → JSNum → JSNum
  | num a, num b => num (min a b)
  | num _, negInf => negInf
  | num a, posInf => num a
  | negInf, num _ => negInf
  | posInf, num b => num b
  | posInf, posInf => posInf
  | negInf, negInf => negInf
  | posInf, negInf => negInf
  | negInf, posInf => negInf
  | _, _ => nan

/-- JavaScript `Math.max` (NaN-absorbing). -/
def jsMax : JSNum → JSNum → JSNum
  | num a, num b => num (max a b)
  | num a, negInf => num a
  | num _, posInf => posInf
  | negInf, num b => num b
  | posInf, num _ => posInf
  | posInf, posInf => posInf
  | negInf, negInf => negInf
  | posInf, negInf => posInf
  | negInf, posInf => posInf
  | _, _ => nan

end JSNum

open JSNum

/-! ### JavaScript string primitives, on character lists -/

/-- JavaScript `trim()`: drop whitespace from both ends. -/
def trimCs (cs : List Char) : List Char :=
  ((cs.dropWhile Char.isWhitespace).reverse.dropWhile Char.isWhitespace).reverse

/-- Worker for `splitWs`; `acc` holds the current word reversed. -/
def splitWsAux : List Char → List Char → List (List Char)
  | [], acc => if acc = [] then [] else [acc.reverse]
  | c :: cs, acc =>
    if c.isWhitespace then
      (if acc = [] then splitWsAux cs [] else acc.reverse :: splitWsAux cs [])
    else splitWsAux cs (c :: acc)

/-- The maximal runs of non-whitespace characters, in order (the result of the
JS regex split `/\s+/` on a string with no leading or trailing whitespace). -/
def splitWs (cs : List Char) : List (List Char) := splitWsAux cs []

/-- Worker for `splitOnChar`. -/
def splitOnCharAux (sep : Char) : List Char → List Char → List (List Char)
  | [], acc => [acc.reverse]
  | c :: cs, acc =>
    if c = sep then acc.reverse :: splitOnCharAux sep cs []
    else splitOnCharAux sep cs (c :: acc)

/-- JavaScript `split(sep)` for a single-character separator: the (possibly
empty) segments between occurrences of `sep`; the empty string yields `[""]`. -/
def splitOnChar (sep : Char) (cs : List Char) : List (List Char) :=
  splitOnCharAux sep cs []

/-- JavaScript `startsWith`: is `p` a prefix of `cs`? -/
def startsWithCs : List Char → List Char → Bool
  | _, [] => true
  | [], _ :: _ => false
  | c :: cs, p :: ps => c = p && startsWithCs cs ps

/-- `trim()` followed by `split(/\s+/)`, as a `String` operation: on the empty
trimmed string the JS regex split yields `[""]`; otherwise it yields the
maximal runs of non-whitespace characters, in order. -/
def splitWsTrim (s : String) : List String :=
  let t := trimCs s.data
  if t = [] then [""] else (splitWs t).map String.mk

/-- Consume an optional leading sign; returns (isNegative, rest). -/
def parseSign : List Char → Bool × List Char
  | '-' :: r => (true, r)
  | '+' :: r => (false, r)
  | cs => (false, cs)

/-- Strip `p` from the front of `cs` if it is a prefix, else `none`. -/
def stripPre : List Char → List Char → Option (List Char)
  | [], rest => some rest
  | p :: ps, c :: cs => if p = c then stripPre ps cs else none
  | _ :: _, [] => none

/-- Numeric value of a decimal digit string (most significant first). -/
def natOfDigits (ds : List Char) : ℕ :=
  ds.foldl (fun a c => a * 10 + (c.toNat - '0'.toNat)) 0

/-- Hexadecimal digit test, as used by `parseInt` with a `0x` prefix. -/
def isHexD (c : Char) : Bool :=
  c.isDigit || ('a' ≤ c && c ≤ 'f') || ('A' ≤ c && c ≤ 'F')

/-- Numeric value of a hexadecimal digit string. -/
def natOfHexDigits (ds : List Char) : ℕ :=
  ds.foldl (fun a c =>
    a * 16 + (if c.isDigit then c.toNat - '0'.toNat
              else if 'a' ≤ c then c.toNat - 'a'.toNat + 10
              else c.toNat - 'A'.toNat + 10)) 0

/-- JavaScript `parseFloat`: skip whitespace, optional sign, then the longest
`StrDecimalLiteral` prefix (`Infinity`, or digits with optional fraction and
optional exponent); `NaN` when no numeric prefix exists.  Trailing garbage is
ignored. -/
def parseFloatJS (s : String) : JSNum :=
  let cs := s.data.dropWhile Char.isWhitespace
  let sr := parseSign cs
  match stripPre ['I', 'n', 'f', 'i', 'n', 'i', 't', 'y'] sr.2 with
  | some _ => if sr.1 then JSNum.negInf else JSNum.posInf
  | none =>
    let ip := sr.2.span Char.isDigit
    let fp : List Char × List Char :=
      match ip.2 with
      | '.' :: rest => rest.span Char.isDigit
      | _ => ([], ip.2)
    if ip.1 = [] ∧ fp.1 = [] then JSNum.nan
    else
      let mant : ℚ := (natOfDigits ip.1 : ℚ) + (natOfDigits fp.1 : ℚ) / (10 : ℚ) ^ fp.1.length
      let e : ℤ :=
        match fp.2 with
        | c :: rest =>
          if c = 'e' ∨ c = 'E' then
            let es := parseSign rest
            let ed := (es.2.span Char.isDigit).1
            if ed = [] then 0
            else if es.1 then -(natOfDigits ed : ℤ) else (natOfDigits ed : ℤ)
          else 0
        | [] => 0
      let v : ℚ := mant * (10 : ℚ) ^ e
      JSNum.num (if sr.1 then -v else v)

/-- JavaScript `parseInt` with unspecified radix: skip whitespace, optional
sign, then hexadecimal after a `0x`/`0X` prefix, otherwise the longest decimal
digit prefix; `none` models the `NaN` result when no digits are found. -/
def parseIntJS (s : String) : Option ℤ :=
  let cs := s.data.dropWhile Char.isWhitespace
  let sr := parseSign cs
  let core : Option ℕ :=
    match sr.2 with
    | '0' :: c :: rest =>
      if c = 'x' ∨ c = 'X' then
        let hd := (rest.span isHexD).1
        if hd = [] then none else some (natOfHexDigits hd)
      else some (natOfDigits ((('0' :: c :: rest).span Char.isDigit).1))
    | rest =>
      let dd := (rest.span Char.isDigit).1
      if dd = [] then none else some (natOfDigits dd)
  core.map (fun n => if sr.1 then -(n : ℤ) else (n : ℤ))

namespace OBJLoader

/-- A flat triple of JS numbers, one per axis. -/
abbrev Tri := JSNum × JSNum × JSNum

/-- `parseVertex`: split the (already trimmed) line on whitespace and
`parseFloat` tokens 1, 2, 3.  A missing token is `undefined`, and
`parseFloat(undefined)` is `NaN`. -/
def parseVertex (s : String) : List JSNum :=
  [ match (splitWsTrim s).get? 1 with | some t => parseFloatJS t | none => JSNum.nan,
    match (splitWsTrim s).get? 2 with | some t => parseFloatJS t | none => JSNum.nan,
    match (splitWsTrim s).get? 3 with | some t => parseFloatJS t | none => JSNum.nan ]

/-- Conversion of one face-reference token: `token.split('/')[0]` parsed with
`parseInt`, minus 1 (`NaN - 1 = NaN`). -/
def convRef (t : String) : JSNum :=
  match parseIntJS (String.mk ((splitOnChar '/' t.data).headD [])) with
  | some n => JSNum.num ((n : ℚ) - 1)
  | none => JSNum.nan

/-- `triangulateFace`: quad `[v0,v1,v2,v3]` becomes `[v0,v1,v2,v0,v2,v3]`
(out-of-range JS array reads are `undefined`, modelled as `NaN`; the caller
only passes length-4 lists). -/
def triangulateFace (face : List JSNum) : List JSNum :=
  [ face.getD 0 JSNum.nan, face.getD 1 JSNum.nan, face.getD 2 JSNum.nan,
    face.getD 0 JSNum.nan, face.getD 2 JSNum.nan, face.getD 3 JSNum.nan ]

/-- `parseFace`: convert every token after the leading `"f"`, and triangulate
exactly when there are four references. -/
def parseFace (s : String) : List JSNum :=
  let parts := splitWsTrim s
  let indices := (parts.drop 1).map convRef
  if indices.length = 4 then triangulateFace indices else indices

/-- Group a flat coordinate list into triples, as the normalization loop's
stride-3 indexing does; JS reads past the end of the array are `undefined`,
modelled as `NaN` (they never occur for parser-produced lists, whose length is
a multiple of 3). -/
def toTriples : List JSNum → List Tri
  | [] => []
  | [a] => [(a, JSNum.nan, JSNum.nan)]
  | [a, b] => [(a, b, JSNum.nan)]
  | a :: b :: c :: rest => (a, b, c) :: toTriples rest

/-- Componentwise `Math.min` on triples (one loop iteration of the min pass). -/
def jsMin3 (p t : Tri) : Tri :=
  (jsMin p.1 t.1, jsMin p.2.1 t.2.1, jsMin p.2.2 t.2.2)

/-- Componentwise `Math.max` on triples (one loop iteration of the max pass). -/
def jsMax3 (p t : Tri) : Tri :=
  (jsMax p.1 t.1, jsMax p.2.1 t.2.1, jsMax p.2.2 t.2.2)

/-- The normalization pass of `load`: seed min/max with
`[vertices[0], vertices[1], vertices[2]]` (`undefined`, i.e. `NaN`, when
absent), fold min and max over all stride-3 triples, compute the per-axis
center `(max+min)/2` and the scalar `range = Math.max` of the three spans, and
rewrite every coordinate to `(coord - center[axis]) / (range / 2)`. -/
def normalizePhase (vs : List JSNum) : List JSNum :=
  let seed : Tri := (vs.getD 0 JSNum.nan, vs.getD 1 JSNum.nan, vs.getD 2 JSNum.nan)
  let ts := toTriples vs
  let mm := ts.foldl (fun (p : Tri × Tri) t => (jsMin3 p.1 t, jsMax3 p.2 t)) (seed, seed)
  let mn := mm.1
  let mx := mm.2
  let cx := jsDiv (jsAdd mx.1 mn.1) (JSNum.num 2)
  let cy := jsDiv (jsAdd mx.2.1 mn.2.1) (JSNum.num 2)
  let cz := jsDiv (jsAdd mx.2.2 mn.2.2) (JSNum.num 2)
  let range := jsMax (jsMax (jsSub mx.1 mn.1) (jsSub mx.2.1 mn.2.1)) (jsSub mx.2.2 mn.2.2)
  let hr := jsDiv range (JSNum.num 2)
  ts.flatMap (fun t =>
    [jsDiv (jsSub t.1 cx) hr, jsDiv (jsSub t.2.1 cy) hr, jsDiv (jsSub t.2.2 cz) hr])

/-- One iteration of the parsing loop of `load`: trim the line, dispatch on
the `"v "` / `"f "` markers, and append the parsed coordinates respectively
indices.  All other lines are ignored. -/
def loadStep (acc : List JSNum × List JSNum) (line : String) : List JSNum × List JSNum :=
  let l := String.mk (trimCs line.data)
  if startsWithCs l.data ['v', ' '] then (acc.1 ++ parseVertex l, acc.2)
  else if startsWithCs l.data ['f', ' '] then (acc.1, acc.2 ++ parseFace l)
  else acc

/-- The parsing loop of `load`: split on newlines and fold `loadStep` over the
lines. -/
def loadParse (text : String) : List JSNum × List JSNum :=
  ((splitOnChar '\n' text.data).map String.mk).foldl loadStep ([], [])

/-- `OBJLoader.load` on the file contents: parse all lines, then normalize the
vertex array in place and return the pair `(vertices, indices)`.  The JS
function is total — it contains no validation and never throws on any input
text (out-of-range reads yield `undefined`, arithmetic on it yields `NaN`). -/
def load (text : String) : List JSNum × List JSNum :=
  let pr := loadParse text
  (normalizePhase pr.1, pr.2)

end OBJLoader

section LoaderSanity

open OBJLoader

example : parseFace "f 1 2 3" = [JSNum.num 0, JSNum.num 1, JSNum.num 2] := by
  with_unfolding_all decide

example : parseFace "f 1 2 3 4" =
    [JSNum.num 0, JSNum.num 1, JSNum.num 2, JSNum.num 0, JSNum.num 2, JSNum.num 3] := by
  with_unfolding_all decide

example : convRef "5/12/3" = JSNum.num 4 := by with_unfolding_all decide

example : load "" = ([], []) := by with_unfolding_all decide

example : load "v 1 2 3\nv 1 2 3" = (List.replicate 6 JSNum.nan, []) := by
  with_unfolding_all decide

example : load "v 0 0 0\nv 2 0 0" =
    ([JSNum.num (-1), JSNum.num 0, JSNum.num 0, JSNum.num 1, JSNum.num 0, JSNum.num 0], []) := by
  with_unfolding_all decide

example : parseFloatJS "-1.5e2" = JSNum.num (-150) := by with_unfolding_all decide

example : parseFloatJS "abc" = JSNum.nan := by with_unfolding_all decide

example : parseVertex "v 1 2" = [JSNum.num 1, JSNum.num 2, JSNum.nan] := by
  with_unfolding_all decide

end LoaderSanity

/-! ### glMatrix vector / matrix embedding (camera and node controller) -/

/-- Oracle for the real-valued math functions `Math.sqrt`, `Math.sin`,
`Math.cos`, which have no exact rational counterpart.  All controller theorems
hold for every oracle. -/
structure MathOracle where
  sqrtQ : ℚ → ℚ
  sinQ : ℚ → ℚ
  cosQ : ℚ → ℚ

/-- A 3-vector of (exact) JavaScript numbers. -/
@[ext]
structure Vec3 where
  x : ℚ
  y : ℚ
  z : ℚ
deriving DecidableEq, Repr

namespace Vec3

/-- `vec3.create()`. -/
def zero : Vec3 := ⟨0, 0, 0⟩

/-- `vec3.add(out, a, b)`. -/
def vadd (a b : Vec3) : Vec3 := ⟨a.x + b.x, a.y + b.y, a.z + b.z⟩

/-- `vec3.subtract(out, a, b)`. -/
def vsub (a b : Vec3) : Vec3 := ⟨a.x - b.x, a.y - b.y, a.z - b.z⟩

/-- `vec3.scaleAndAdd(out, a, b, s) = a + b·s`. -/
def vscaleAndAdd (a b : Vec3) (s : ℚ) : Vec3 :=
  ⟨a.x + b.x * s, a.y + b.y * s, a.z + b.z * s⟩

/-- `vec3.cross(out, a, b)`. -/
def vcross (a b : Vec3) : Vec3 :=
  ⟨a.y * b.z - a.z * b.y, a.z * b.x - a.x * b.z, a.x * b.y - a.y * b.x⟩

/-- `vec3.normalize(out, a)`: glMatrix computes `len = x²+y²+z²`, replaces it
by `1/Math.sqrt(len)` when positive, and scales by it (so the zero vector maps
to the zero vector). -/
def vnormalize (M : MathOracle) (a : Vec3) : Vec3 :=
  let len0 : ℚ := a.x * a.x + a.y * a.y + a.z * a.z
  let len : ℚ := if 0 < len0 then (M.sqrtQ len0)⁻¹ else len0
  ⟨a.x * len, a.y * len, a.z * len⟩

/-- Squared distance between two points (used to state zoom monotonicity
without a square root). -/
def distSq (a b : Vec3) : ℚ :=
  (b.x - a.x) * (b.x - a.x) + (b.y - a.y) * (b.y - a.y) + (b.z - a.z) * (b.z - a.z)

end Vec3

/-- A 4×4 matrix in glMatrix layout: a flat array of 16 entries, column-major
(`e0..e3` is the first column). -/
@[ext]
structure Mat4 where
  e0 : ℚ
  e1 : ℚ
  e2 : ℚ
  e3 : ℚ
  e4 : ℚ
  e5 : ℚ
  e6 : ℚ
  e7 : ℚ
  e8 : ℚ
  e9 : ℚ
  e10 : ℚ
  e11 : ℚ
  e12 : ℚ
  e13 : ℚ
  e14 : ℚ
  e15 : ℚ
deriving DecidableEq, Repr

namespace Mat4

/-- `mat4.create()`: the identity matrix. -/
def idMat4 : Mat4 := ⟨1, 0, 0, 0, 0, 1, 0, 0, 0, 0, 1, 0, 0, 0, 0, 1⟩

/-- `mat4.multiply(out, a, b)`: the matrix product `a * b`
(`out[4j+i] = Σ_k b[4j+k] * a[4k+i]`, as glMatrix unrolls it). -/
def mulMat4 (a b : Mat4) : Mat4 :=
  ⟨ b.e0 * a.e0 + b.e1 * a.e4 + b.e2 * a.e8 + b.e3 * a.e12,
    b.e0 * a.e1 + b.e1 * a.e5 + b.e2 * a.e9 + b.e3 * a.e13,
    b.e0 * a.e2 + b.e1 * a.e6 + b.e2 * a.e10 + b.e3 * a.e14,
    b.e0 * a.e3 + b.e1 * a.e7 + b.e2 * a.e11 + b.e3 * a.e15,
    b.e4 * a.e0 + b.e5 * a.e4 + b.e6 * a.e8 + b.e7 * a.e12,
    b.e4 * a.e1 + b.e5 * a.e5 + b.e6 * a.e9 + b.e7 * a.e13,
    b.e4 * a.e2 + b.e5 * a.e6 + b.e6 * a.e10 + b.e7 * a.e14,
    b.e4 * a.e3 + b.e5 * a.e7 + b.e6 * a.e11 + b.e7 * a.e15,
    b.e8 * a.e0 + b.e9 * a.e4 + b.e10 * a.e8 + b.e11 * a.e12,
    b.e8 * a.e1 + b.e9 * a.e5 + b.e10 * a.e9 + b.e11 * a.e13,
    b.e8 * a.e2 + b.e9 * a.e6 + b.e10 * a.e10 + b.e11 * a.e14,
    b.e8 * a.e3 + b.e9 * a.e7 + b.e10 * a.e11 + b.e11 * a.e15,
    b.e12 * a.e0 + b.e13 * a.e4 + b.e14 * a.e8 + b.e15 * a.e12,
    b.e12 * a.e1 + b.e13 * a.e5 + b.e14 * a.e9 + b.e15 * a.e13,
    b.e12 * a.e2 + b.e13 * a.e6 + b.e14 * a.e10 + b.e15 * a.e14,
    b.e12 * a.e3 + b.e13 * a.e7 + b.e14 * a.e11 + b.e15 * a.e15 ⟩

/-- `mat4.fromRotation(out, rad, axis)`: normalize the axis via
`1/Math.hypot(x,y,z)` (oracle square root of the squared length) and build the
axis-angle rotation matrix from `Math.sin`/`Math.cos` (oracle).  glMatrix's
early-out for a near-zero axis (it returns `null`, which would crash the
caller) is not modelled: the call sites pass unit basis vectors, and no
theorem below depends on this branch. -/
def fromRotationM (M : MathOracle) (rad : ℚ) (axis : Vec3) : Mat4 :=
  let len : ℚ := M.sqrtQ (axis.x * axis.x + axis.y * axis.y + axis.z * axis.z)
  let x := axis.x * len⁻¹
  let y := axis.y * len⁻¹
  let z := axis.z * len⁻¹
  let s := M.sinQ rad
  let c := M.cosQ rad
  let t := 1 - c
  ⟨ x * x * t + c, y * x * t + z * s, z * x * t - y * s, 0,
    x * y * t - z * s, y * y * t + c, z * y * t + x * s, 0,
    x * z * t + y * s, y * z * t - x * s, z * z * t + c, 0,
    0, 0, 0, 1 ⟩

/-- `mat4.fromScaling(out, v)`. -/
def fromScalingM (v : Vec3) : Mat4 :=
  ⟨v.x, 0, 0, 0, 0, v.y, 0, 0, 0, 0, v.z, 0, 0, 0, 0, 1⟩

/-- `mat4.fromTranslation(out, v)`. -/
def fromTranslationM (v : Vec3) : Mat4 :=
  ⟨1, 0, 0, 0, 0, 1, 0, 0, 0, 0, 1, 0, v.x, v.y, v.z, 1⟩

/-- `vec3.transformMat4(out, a, m)`: apply `m` to the point `a` with the
homogeneous divide (`w` falls back to 1 when it is 0, JS `w || 1.0`). -/
def transformMat4 (a : Vec3) (m : Mat4) : Vec3 :=
  let w0 : ℚ := m.e3 * a.x + m.e7 * a.y + m.e11 * a.z + m.e15
  let w : ℚ := if w0 = 0 then 1 else w0
  ⟨ (m.e0 * a.x + m.e4 * a.y + m.e8 * a.z + m.e12) / w,
    (m.e1 * a.x + m.e5 * a.y + m.e9 * a.z + m.e13) / w,
    (m.e2 * a.x + m.e6 * a.y + m.e10 * a.z + m.e14) / w ⟩

/-- The translation column of a matrix (entries 12–14 of the glMatrix array). -/
def translationCol (m : Mat4) : Vec3 := ⟨m.e12, m.e13, m.e14⟩

end Mat4

open Vec3 Mat4

/-- The per-frame input-device state polled by the controller:
`Input.isMouseDown(0/1/2)`, `Input.isKeyDown(' ')`, and the per-frame pointer
deltas `Input.getMouseDx()` / `Input.getMouseDy()` (each poll within one frame
returns the same value). -/
structure InputState where
  mouse0 : Bool
  mouse1 : Bool
  mouse2 : Bool
  space : Bool
  dx : ℚ
  dy : ℚ
deriving DecidableEq, Repr

namespace WebGlApp

/-- The camera state fields of `WebGlApp` read and written by `updateCamera`:
`eye`, `center`, and the derived basis vectors maintained by
`updateViewSpaceVectors`.  (The `view` matrix pushed to the shader uniform is
an external sink and is not part of the state.) -/
@[ext]
structure CamState where
  eye : Vec3
  center : Vec3
  forward : Vec3
  right : Vec3
  up : Vec3
deriving DecidableEq, Repr

/-- `updateViewSpaceVectors`: recompute `forward = normalize(eye - center)`,
`right = normalize([0,1,0] × forward)`, `up = normalize(forward × right)`. -/
def updateViewSpaceVectors (M : MathOracle) (st : CamState) : CamState :=
  let f := vnormalize M (vsub st.eye st.center)
  let r := vnormalize M (vcross ⟨0, 1, 0⟩ f)
  let u := vnormalize M (vcross f r)
  { st with forward := f, right := r, up := u }

/-- `WebGlApp.updateCamera(delta_time)`: three independent `if` blocks —
zoom (secondary button), rotate (primary button without space), pan (middle
button, or primary with space) — each mutating `eye`/`center` in turn, then a
final dirty-flag block rederiving the view-space basis vectors (the `lookAt`
push to the shader is external).  Returns the new state and the dirty flag. -/
def updateCamera (M : MathOracle) (inp : InputState) (delta_time : ℚ)
    (st : CamState) : CamState × Bool :=
  -- Control - Zoom
  let s1 :=
    if inp.mouse2 then
      let zoomSpeed := 2 * delta_time
      let direction := vsub st.eye st.center
      let scaleFactor := 1 + inp.dy * zoomSpeed
      { st with eye := vscaleAndAdd st.center direction scaleFactor }
    else st
  -- Control - Rotate
  let s2 :=
    if inp.mouse0 && !inp.space then
      let sensitivity := 2 * delta_time
      let offset := vsub s1.eye s1.center
      let rotationY := fromRotationM M (-inp.dx * sensitivity) s1.up
      let offset1 := transformMat4 offset rotationY
      let rotationX := fromRotationM M (-inp.dy * sensitivity) s1.right
      let offset2 := transformMat4 offset1 rotationX
      { s1 with eye := vadd s1.center offset2 }
    else s1
  -- Control - Pan
  let s3 :=
    if inp.mouse1 || (inp.mouse0 && inp.space) then
      let panSpeed := 2 * delta_time
      let p := vscaleAndAdd (vscaleAndAdd Vec3.zero s2.right (-inp.dx * panSpeed))
        s2.up (inp.dy * panSpeed)
      { s2 with eye := vadd s2.eye p, center := vadd s2.center p }
    else s2
  let view_dirty := inp.mouse2 || (inp.mouse0 && !inp.space)
    || (inp.mouse1 || (inp.mouse0 && inp.space))
  (if view_dirty then updateViewSpaceVectors M s3 else s3, view_dirty)

/-- The scale matrix built by `updateSceneNode`'s secondary-button block
(`mat4.create()` when inactive). -/
def nodeScaleMat (inp : InputState) (delta_time : ℚ) : Mat4 :=
  if inp.mouse2 then
    let s := 1 + inp.dy * delta_time
    fromScalingM ⟨s, s, s⟩
  else idMat4

/-- The rotation matrix built by `updateSceneNode`'s rotate block:
`rotation = rotY * rotX` with `rotY = fromRotation(dx·sensitivity, up)` and
`rotX = fromRotation(dy·sensitivity, right)` (`mat4.create()` when inactive). -/
def nodeRotMat (M : MathOracle) (inp : InputState) (delta_time : ℚ)
    (st : CamState) : Mat4 :=
  if inp.mouse0 && !inp.space then
    let sensitivity := 2 * delta_time
    let rotY := fromRotationM M (inp.dx * sensitivity) st.up
    let rotX := fromRotationM M (inp.dy * sensitivity) st.right
    mulMat4 rotY rotX
  else idMat4

/-- The translation matrix built by `updateSceneNode`'s translate block:
`fromTranslation(right·(dx·speed) + up·(-dy·speed))` with `speed = 5·Δt`
(`mat4.create()` when inactive). -/
def nodeTransMat (inp : InputState) (delta_time : ℚ) (st : CamState) : Mat4 :=
  if inp.mouse1 || (inp.mouse0 && inp.space) then
    let speed := 5 * delta_time
    let t := vscaleAndAdd (vscaleAndAdd Vec3.zero st.right (inp.dx * speed))
      st.up (-inp.dy * speed)
    fromTranslationM t
  else idMat4

/-- The `node_dirty` flag of `updateSceneNode`: some interaction block ran. -/
def nodeDirty (inp : InputState) : Bool :=
  inp.mouse2 || (inp.mouse0 && !inp.space) || (inp.mouse1 || (inp.mouse0 && inp.space))

/-- `WebGlApp.updateSceneNode(node, delta_time)`: build scale / rotation /
translation matrices from the input state, and when dirty overwrite the node's
transform `T` with `(rotation * (translation * T)) * scale` — translation and
rotation pre-multiplied, scale post-multiplied.  Returns the transform written
back (the unchanged `T` when no interaction is active). -/
def updateSceneNode (M : MathOracle) (inp : InputState) (delta_time : ℚ)
    (st : CamState) (transformation : Mat4) : Mat4 :=
  if nodeDirty inp then
    mulMat4 (mulMat4 (nodeRotMat M inp delta_time st) (mulMat4 (nodeTransMat inp delta_time st) transformation))
      (nodeScaleMat inp delta_time)
  else transformation

end WebGlApp

/-! ### Shared helpers for the controller theorems -/

/-- Matrix multiplication as unrolled by glMatrix is associative. -/
theorem mulMat4_assoc (a b c : Mat4) :
    mulMat4 (mulMat4 a b) c = mulMat4 a (mulMat4 b c) := by
  ext <;> simp only [mulMat4] <;> ring

/-- Left identity for the glMatrix product. -/
theorem idMat4_mul (a : Mat4) : mulMat4 idMat4 a = a := by
  ext <;> simp [mulMat4, idMat4]

/-- Right identity for the glMatrix product. -/
theorem mul_idMat4 (a : Mat4) : mulMat4 a idMat4 = a := by
  ext <;> simp [mulMat4, idMat4]

/-- A concrete oracle (all math functions constantly zero), used only to
instantiate counterexamples and witnesses whose control path never evaluates
an oracle value in a way that matters. -/
def oracle0 : MathOracle := ⟨fun _ => 0, fun _ => 0, fun _ => 0⟩

open WebGlApp

section ControllerClaims

/-- C8: with only the secondary button held, `updateCamera` leaves `center`
unchanged and replaces `eye` by `center + (eye - center)·(1 + dy·zoomSpeed)`
with `zoomSpeed = 2·Δt`; when `dy > 0`, `Δt > 0` and the eye-center offset is
nonzero, the new eye is strictly farther from `center` (squared distances
compare strictly), along the original eye-center direction by construction. -/
theorem claim_C8_zoom_only (M : MathOracle) (inp : InputState) (dt : ℚ)
    (st : CamState) (h2 : inp.mouse2 = true) (h0 : inp.mouse0 = false)
    (h1 : inp.mouse1 = false) :
    ((updateCamera M inp dt st).1.center = st.center ∧
      (updateCamera M inp dt st).1.eye =
        vscaleAndAdd st.center (vsub st.eye st.center) (1 + inp.dy * (2 * dt))) ∧
    (0 < inp.dy → 0 < dt → vsub st.eye st.center ≠ Vec3.zero →
      distSq st.center (updateCamera M inp dt st).1.eye >
        distSq st.center st.eye) := by
  have heq : (updateCamera M inp dt st).1 =
      updateViewSpaceVectors M
        { st with eye := vscaleAndAdd st.center (vsub st.eye st.center) (1 + inp.dy * (2 * dt)) } := by
    simp [updateCamera, h2, h0, h1]
  refine ⟨⟨?_, ?_⟩, ?_⟩
  · rw [heq]; rfl
  · rw [heq]; rfl
  · intro hdy hdt hne
    rw [heq]
    have hA : 0 < distSq st.center st.eye := by
      have hcases : ¬(st.eye.x - st.center.x = 0 ∧ st.eye.y - st.center.y = 0 ∧
          st.eye.z - st.center.z = 0) := by
        intro h
        exact hne (by
          show vsub st.eye st.center = Vec3.zero
          ext
          · exact h.1
          · exact h.2.1
          · exact h.2.2)
      rcases not_and_or.mp hcases with hx | hyz
      · have := mul_self_pos.mpr hx
        have h1 := mul_self_nonneg (st.eye.y - st.center.y)
        have h2 := mul_self_nonneg (st.eye.z - st.center.z)
        simp only [distSq]; nlinarith
      · rcases not_and_or.mp hyz with hy | hz
        · have := mul_self_pos.mpr hy
          have h1 := mul_self_nonneg (st.eye.x - st.center.x)
          have h2 := mul_self_nonneg (st.eye.z - st.center.z)
          simp only [distSq]; nlinarith
        · have := mul_self_pos.mpr hz
          have h1 := mul_self_nonneg (st.eye.x - st.center.x)
          have h2 := mul_self_nonneg (st.eye.y - st.center.y)
          simp only [distSq]; nlinarith
    have hk : 0 < inp.dy * dt := mul_pos hdy hdt
    have heye : (updateViewSpaceVectors M
        { st with eye := vscaleAndAdd st.center (vsub st.eye st.center) (1 + inp.dy * (2 * dt)) }).eye =
        vscaleAndAdd st.center (vsub st.eye st.center) (1 + inp.dy * (2 * dt)) := rfl
    rw [heye]
    simp only [distSq, vscaleAndAdd, vsub] at hA ⊢
    nlinarith [mul_pos hA hk, mul_pos (mul_pos hA hk) hk]

/-- C9: with only the pan mode active (middle button, or primary plus the
space modifier, and neither zoom nor rotate active), `updateCamera` adds the
identical vector `right·(-dx·panSpeed) + up·(dy·panSpeed)` (with
`panSpeed = 2·Δt`) to both `eye` and `center`, so `eye - center` is
unchanged. -/
theorem claim_C9_pan_only (M : MathOracle) (inp : InputState) (dt : ℚ)
    (st : CamState) (h2 : inp.mouse2 = false)
    (hpan : inp.mouse1 = true ∨ (inp.mouse0 = true ∧ inp.space = true))
    (hrot : ¬(inp.mouse0 = true ∧ inp.space = false)) :
    (updateCamera M inp dt st).1.eye =
      vadd st.eye (vscaleAndAdd (vscaleAndAdd Vec3.zero st.right (-inp.dx * (2 * dt)))
        st.up (inp.dy * (2 * dt))) ∧
    (updateCamera M inp dt st).1.center =
      vadd st.center (vscaleAndAdd (vscaleAndAdd Vec3.zero st.right (-inp.dx * (2 * dt)))
        st.up (inp.dy * (2 * dt))) ∧
    vsub (updateCamera M inp dt st).1.eye (updateCamera M inp dt st).1.center =
      vsub st.eye st.center := by
  have hrot' : (inp.mouse0 && !inp.space) = false := by
    cases hm : inp.mouse0 <;> cases hs : inp.space <;> simp_all
  have hpan' : (inp.mouse1 || (inp.mouse0 && inp.space)) = true := by
    rcases hpan with h | ⟨hm, hs⟩ <;> simp_all
  have heq : (updateCamera M inp dt st).1 =
      updateViewSpaceVectors M
        { st with
          eye := vadd st.eye (vscaleAndAdd (vscaleAndAdd Vec3.zero st.right (-inp.dx * (2 * dt)))
            st.up (inp.dy * (2 * dt))),
          center := vadd st.center (vscaleAndAdd (vscaleAndAdd Vec3.zero st.right (-inp.dx * (2 * dt)))
            st.up (inp.dy * (2 * dt))) } := by
    simp [updateCamera, h2, hrot', hpan']
  refine ⟨by rw [heq]; rfl, by rw [heq]; rfl, ?_⟩
  rw [heq]
  show vsub (vadd st.eye _) (vadd st.center _) = _
  ext <;> simp [vsub, vadd]

end ControllerClaims

section ControllerClaims2

/-- Concrete input with both the secondary (zoom) and middle (pan) buttons
held, used to refute mutual exclusivity of the camera interaction modes. -/
def cexInp4 : InputState := ⟨false, true, true, false, 0, 1⟩

/-- A concrete camera state with a rational view-space basis. -/
def cexSt4 : CamState :=
  ⟨⟨1, 0, 0⟩, ⟨0, 0, 0⟩, ⟨1, 0, 0⟩, ⟨0, 0, -1⟩, ⟨0, 1, 0⟩⟩

/-- C4 counterexample: with the secondary button held (zoom active, the
highest-priority mode) and the middle button also held, `updateCamera` does
not apply the zoom update alone — the pan block also runs and moves `center`,
which the zoom update never touches.  The modes are therefore not mutually
exclusive per frame. -/
theorem cex_C4_modes_not_exclusive :
    cexInp4.mouse2 = true ∧ cexInp4.mouse0 = false ∧
    (updateCamera oracle0 cexInp4 (1 / 2) cexSt4).1.center ≠ cexSt4.center := by
  refine ⟨rfl, rfl, ?_⟩
  with_unfolding_all decide

/-- C4 amended: the three interaction blocks are checked in the fixed order
zoom, rotate, pan, but they are independent `if`s, not mutually exclusive:
every active mode's update is applied cumulatively.  In particular, with the
secondary and middle buttons both held (primary released), the zoom update is
applied to `eye` and then the pan vector is added to both the zoomed `eye`
and to `center`. -/
theorem claim_C4_amended_all_active_modes_apply (M : MathOracle)
    (inp : InputState) (dt : ℚ) (st : CamState) (h2 : inp.mouse2 = true)
    (h1 : inp.mouse1 = true) (h0 : inp.mouse0 = false) :
    (updateCamera M inp dt st).1.eye =
      vadd (vscaleAndAdd st.center (vsub st.eye st.center) (1 + inp.dy * (2 * dt)))
        (vscaleAndAdd (vscaleAndAdd Vec3.zero st.right (-inp.dx * (2 * dt)))
          st.up (inp.dy * (2 * dt))) ∧
    (updateCamera M inp dt st).1.center =
      vadd st.center
        (vscaleAndAdd (vscaleAndAdd Vec3.zero st.right (-inp.dx * (2 * dt)))
          st.up (inp.dy * (2 * dt))) := by
  have heq : (updateCamera M inp dt st).1 =
      updateViewSpaceVectors M
        { st with
          eye := vadd (vscaleAndAdd st.center (vsub st.eye st.center) (1 + inp.dy * (2 * dt)))
            (vscaleAndAdd (vscaleAndAdd Vec3.zero st.right (-inp.dx * (2 * dt)))
              st.up (inp.dy * (2 * dt))),
          center := vadd st.center
            (vscaleAndAdd (vscaleAndAdd Vec3.zero st.right (-inp.dx * (2 * dt)))
              st.up (inp.dy * (2 * dt))) } := by
    simp [updateCamera, h2, h1, h0]
  exact ⟨by rw [heq]; rfl, by rw [heq]; rfl⟩

/-- Witness for the amended C4 at a concrete input. -/
theorem claim_C4_amended_witness :
    (updateCamera oracle0 cexInp4 (1 / 2) cexSt4).1.eye =
      vadd (vscaleAndAdd cexSt4.center (vsub cexSt4.eye cexSt4.center) (1 + cexInp4.dy * (2 * (1 / 2))))
        (vscaleAndAdd (vscaleAndAdd Vec3.zero cexSt4.right (-cexInp4.dx * (2 * (1 / 2))))
          cexSt4.up (cexInp4.dy * (2 * (1 / 2)))) ∧
    (updateCamera oracle0 cexInp4 (1 / 2) cexSt4).1.center =
      vadd cexSt4.center
        (vscaleAndAdd (vscaleAndAdd Vec3.zero cexSt4.right (-cexInp4.dx * (2 * (1 / 2))))
          cexSt4.up (cexInp4.dy * (2 * (1 / 2)))) :=
  claim_C4_amended_all_active_modes_apply oracle0 cexInp4 (1 / 2) cexSt4 rfl rfl rfl

/-- Concrete zoom-only input (`dy = 1`). -/
def inp8 : InputState := ⟨false, false, true, false, 0, 1⟩

/-- The spec's zoom scenario state: `eye = [2, 0.5, -2]`, `center = [0,0,0]`. -/
def st8 : CamState :=
  ⟨⟨2, 1 / 2, -2⟩, ⟨0, 0, 0⟩, Vec3.zero, Vec3.zero, Vec3.zero⟩

/-- Witness for C8 at the spec's zoom scenario. -/
theorem claim_C8_witness :
    ((updateCamera oracle0 inp8 (1 / 2) st8).1.center = st8.center ∧
      (updateCamera oracle0 inp8 (1 / 2) st8).1.eye =
        vscaleAndAdd st8.center (vsub st8.eye st8.center) (1 + inp8.dy * (2 * (1 / 2)))) ∧
    distSq st8.center (updateCamera oracle0 inp8 (1 / 2) st8).1.eye >
      distSq st8.center st8.eye :=
  ⟨(claim_C8_zoom_only oracle0 inp8 (1 / 2) st8 rfl rfl rfl).1,
   (claim_C8_zoom_only oracle0 inp8 (1 / 2) st8 rfl rfl rfl).2 (by norm_num [inp8])
     (by norm_num) (by with_unfolding_all decide)⟩

/-- Concrete pan-only input (middle button, `dx = 3`, `dy = 2`). -/
def inp9 : InputState := ⟨false, true, false, false, 3, 2⟩

/-- Witness for C9 at a concrete input. -/
theorem claim_C9_witness :
    (updateCamera oracle0 inp9 (1 / 2) cexSt4).1.eye =
      vadd cexSt4.eye (vscaleAndAdd (vscaleAndAdd Vec3.zero cexSt4.right (-inp9.dx * (2 * (1 / 2))))
        cexSt4.up (inp9.dy * (2 * (1 / 2)))) ∧
    (updateCamera oracle0 inp9 (1 / 2) cexSt4).1.center =
      vadd cexSt4.center (vscaleAndAdd (vscaleAndAdd Vec3.zero cexSt4.right (-inp9.dx * (2 * (1 / 2))))
        cexSt4.up (inp9.dy * (2 * (1 / 2)))) ∧
    vsub (updateCamera oracle0 inp9 (1 / 2) cexSt4).1.eye
        (updateCamera oracle0 inp9 (1 / 2) cexSt4).1.center =
      vsub cexSt4.eye cexSt4.center :=
  claim_C9_pan_only oracle0 inp9 (1 / 2) cexSt4 rfl (Or.inl rfl) (by simp [inp9])

/-- C6: whenever any node interaction is active, `updateSceneNode` writes back
`Rotation * Translation * T_old * Scale` (left-associated; the code computes
`(Rotation * (Translation * T_old)) * Scale`, equal by associativity), where
the rotation block composes `rotY * rotX` (yaw outer); consequently, with only
the secondary button held (scale only) and `T_old` a pure translation, the
translation column of the written transform is unchanged. -/
theorem claim_C6_node_transform_order (M : MathOracle) (inp : InputState)
    (dt : ℚ) (st : CamState) (told : Mat4) (hact : nodeDirty inp = true) :
    updateSceneNode M inp dt st told =
      mulMat4 (mulMat4 (mulMat4 (nodeRotMat M inp dt st) (nodeTransMat inp dt st)) told)
        (nodeScaleMat inp dt) ∧
    (inp.mouse0 = true → inp.space = false →
      nodeRotMat M inp dt st =
        mulMat4 (fromRotationM M (inp.dx * (2 * dt)) st.up)
          (fromRotationM M (inp.dy * (2 * dt)) st.right)) ∧
    (inp.mouse2 = true → inp.mouse0 = false → inp.mouse1 = false →
      ∀ t : Vec3, told = fromTranslationM t →
        translationCol (updateSceneNode M inp dt st told) = t) := by
  refine ⟨?_, ?_, ?_⟩
  · rw [updateSceneNode, if_pos hact]
    simp only [mulMat4_assoc]
  · intro hm hs
    simp [nodeRotMat, hm, hs]
  · intro h2 h0 h1 t ht
    subst ht
    rw [updateSceneNode, if_pos hact]
    rw [show nodeRotMat M inp dt st = idMat4 by simp [nodeRotMat, h0]]
    rw [show nodeTransMat inp dt st = idMat4 by simp [nodeTransMat, h0, h1]]
    rw [idMat4_mul, idMat4_mul]
    simp [nodeScaleMat, h2, mulMat4, fromTranslationM, fromScalingM, translationCol]

/-- Witness for C6: scale-only frame on a pure-translation node transform. -/
theorem claim_C6_witness :
    updateSceneNode oracle0 inp8 (1 / 2) cexSt4 (fromTranslationM ⟨5, -7, 11⟩) =
      mulMat4 (mulMat4 (mulMat4 (nodeRotMat oracle0 inp8 (1 / 2) cexSt4)
          (nodeTransMat inp8 (1 / 2) cexSt4)) (fromTranslationM ⟨5, -7, 11⟩))
        (nodeScaleMat inp8 (1 / 2)) ∧
    translationCol (updateSceneNode oracle0 inp8 (1 / 2) cexSt4 (fromTranslationM ⟨5, -7, 11⟩)) =
      ⟨5, -7, 11⟩ :=
  ⟨(claim_C6_node_transform_order oracle0 inp8 (1 / 2) cexSt4 (fromTranslationM ⟨5, -7, 11⟩) rfl).1,
   (claim_C6_node_transform_order oracle0 inp8 (1 / 2) cexSt4 (fromTranslationM ⟨5, -7, 11⟩) rfl).2.2
     rfl rfl rfl ⟨5, -7, 11⟩ rfl⟩

end ControllerClaims2

/-! ### Loader observers and fold lemmas -/

namespace OBJLoader

/-- The vertex coordinates a single line contributes to `load`'s vertex
array: `parseVertex` of the trimmed line when it is a vertex record, nothing
otherwise. -/
def vContrib (line : String) : List JSNum :=
  let l := String.mk (trimCs line.data)
  if startsWithCs l.data ['v', ' '] then parseVertex l else []

/-- The indices a single line contributes to `load`'s index array:
`parseFace` of the trimmed line when it is a face record (and not a vertex
record), nothing otherwise. -/
def fContrib (line : String) : List JSNum :=
  let l := String.mk (trimCs line.data)
  if startsWithCs l.data ['v', ' '] then []
  else if startsWithCs l.data ['f', ' '] then parseFace l else []

/-- Unfolding the parsing fold: the accumulated vertex and index arrays are
the per-line contributions, concatenated in line order. -/
theorem foldl_loadStep (ls : List String) (acc : List JSNum × List JSNum) :
    ls.foldl loadStep acc = (acc.1 ++ ls.flatMap vContrib, acc.2 ++ ls.flatMap fContrib) := by
  induction ls generalizing acc with
  | nil => simp
  | cons l ls ih =>
    rw [List.foldl_cons, ih]
    unfold loadStep vContrib fContrib
    by_cases h1 : startsWithCs (String.mk (trimCs l.data)).data ['v', ' '] = true
    · simp [h1]
    · by_cases h2 : startsWithCs (String.mk (trimCs l.data)).data ['f', ' '] = true
      · simp [h1, h2]
      · simp [h1, h2]

/-- `loadParse` as a flat concatenation of per-line contributions. -/
theorem loadParse_eq (text : String) :
    loadParse text =
      (((splitOnChar '\n' text.data).map String.mk).flatMap vContrib,
       ((splitOnChar '\n' text.data).map String.mk).flatMap fContrib) := by
  rw [loadParse, foldl_loadStep]
  simp

/-- Each line contributes 0 or 3 vertex coordinates, so the vertex array's
length is a multiple of 3. -/
theorem loadParse_fst_length_mod3 (text : String) :
    ((loadParse text).1).length % 3 = 0 := by
  rw [loadParse_eq]
  show (((splitOnChar '\n' text.data).map String.mk).flatMap vContrib).length % 3 = 0
  generalize ((splitOnChar '\n' text.data).map String.mk) = ls
  induction ls with
  | nil => rfl
  | cons l ls ih =>
    rw [List.flatMap_cons, List.length_append]
    have h : (vContrib l).length % 3 = 0 := by
      unfold vContrib
      by_cases h1 : startsWithCs (String.mk (trimCs l.data)).data ['v', ' '] = true
      · simp [h1, parseVertex]
      · simp [h1]
    omega

end OBJLoader

section LoaderClaims

open OBJLoader

/-- C1 counterexample: `load` succeeds (it is total and returns a value) on a
3-vertex mesh whose face references vertex 4, and the returned
`triangleIndices` contain the converted index 3, which is not below
`positions.length / 3 = 3` — nothing is validated or reported. -/
theorem cex_C1_index_out_of_range :
    JSNum.num 3 ∈ (load "v 0 0 0\nv 1 0 0\nv 0 1 0\nf 1 2 4").2 ∧
    (load "v 0 0 0\nv 1 0 0\nv 0 1 0\nf 1 2 4").1.length = 9 ∧
    ¬((3 : ℚ) < (9 : ℚ) / 3) := by
  refine ⟨?_, ?_, by norm_num⟩
  · with_unfolding_all decide
  · with_unfolding_all decide

/-- C1 amended: `load` performs no index validation at all: the returned
`triangleIndices` are exactly the concatenation of the converted face-line
references, and they may reference nonexistent vertices (a 3-vertex mesh with
face `f 1 2 4` yields index 3, with `positions.length / 3 = 3`). -/
theorem claim_C1_amended_indices_unvalidated :
    (∀ text : String, (load text).2 =
      ((splitOnChar '\n' text.data).map String.mk).flatMap fContrib) ∧
    (load "v 0 0 0\nv 1 0 0\nv 0 1 0\nf 1 2 4").1.length = 9 ∧
    JSNum.num 3 ∈ (load "v 0 0 0\nv 1 0 0\nv 0 1 0\nf 1 2 4").2 := by
  refine ⟨fun text => ?_, ?_, ?_⟩
  · show (loadParse text).2 = _
    rw [loadParse_eq]
  · with_unfolding_all decide
  · with_unfolding_all decide

/-- C3 counterexample: a vertex line with a non-numeric coordinate token and a
vertex line with fewer than 3 coordinate tokens are not rejected: `load`
returns normally, with the malformed line's `NaN` coordinates included in the
returned positions (no `ParseError`, no skipping). -/
theorem cex_C3_malformed_vertex_no_error :
    load "v x 0 0" = ([JSNum.nan, JSNum.nan, JSNum.nan], []) ∧
    load "v 1 2" = ([JSNum.nan, JSNum.nan, JSNum.nan], []) := by
  refine ⟨?_, ?_⟩ <;> with_unfolding_all decide

/-- C3 amended: `load` never fails on malformed vertex records: `parseVertex`
always returns exactly 3 values, substituting `NaN` (from `parseFloat`) for a
non-numeric coordinate token and for a missing token, and these values are
appended to the vertex array like any others. -/
theorem claim_C3_amended_vertex_nan_not_error :
    (∀ s : String, (parseVertex s).length = 3) ∧
    (∀ s : String, (splitWsTrim s).length < 4 → JSNum.nan ∈ parseVertex s) ∧
    (∀ s t : String, (splitWsTrim s).get? 1 = some t → parseFloatJS t = JSNum.nan →
      JSNum.nan ∈ parseVertex s) ∧
    parseVertex "v x 0 0" = [JSNum.nan, JSNum.num 0, JSNum.num 0] := by
  refine ⟨fun s => rfl, fun s hlen => ?_, fun s t ht hnan => ?_, by with_unfolding_all decide⟩
  · have h3 : (splitWsTrim s).get? 3 = none := by
      rw [List.get?_eq_none]
      omega
    unfold parseVertex
    rw [h3]
    simp
  · have ht' : (splitWsTrim s)[1]? = some t := by
      rw [← List.get?_eq_getElem?]
      exact ht
    unfold parseVertex
    simp [ht', hnan]

/-- Witness for the amended C3 at concrete malformed lines. -/
theorem claim_C3_witness :
    (parseVertex "v 7").length = 3 ∧ JSNum.nan ∈ parseVertex "v 7" :=
  ⟨claim_C3_amended_vertex_nan_not_error.1 "v 7",
   claim_C3_amended_vertex_nan_not_error.2.1 "v 7" (by with_unfolding_all decide)⟩

/-- C7: `parseFace` converts each reference token by parsing the first
slash-separated component and subtracting 1 (`5/12/3` contributes 4); a
3-reference face yields the three converted indices in order, and a
4-reference face `(v0,v1,v2,v3)` yields `[v0,v1,v2,v0,v2,v3]`. -/
theorem claim_C7_face_conversion_and_triangulation :
    (∀ s t0 t1 t2 : String, splitWsTrim s = ["f", t0, t1, t2] →
      parseFace s = [convRef t0, convRef t1, convRef t2]) ∧
    (∀ s t0 t1 t2 t3 : String, splitWsTrim s = ["f", t0, t1, t2, t3] →
      parseFace s = [convRef t0, convRef t1, convRef t2, convRef t0, convRef t2, convRef t3]) ∧
    (∀ (t : String) (n : ℤ),
      parseIntJS (String.mk ((splitOnChar '/' t.data).headD [])) = some n →
      convRef t = JSNum.num ((n : ℚ) - 1)) ∧
    convRef "5/12/3" = JSNum.num 4 ∧
    parseFace "f 1 2 3" = [JSNum.num 0, JSNum.num 1, JSNum.num 2] ∧
    parseFace "f 1 2 3 4" =
      [JSNum.num 0, JSNum.num 1, JSNum.num 2, JSNum.num 0, JSNum.num 2, JSNum.num 3] := by
  refine ⟨fun s t0 t1 t2 h => ?_, fun s t0 t1 t2 t3 h => ?_, fun t n h => ?_,
    by with_unfolding_all decide, by with_unfolding_all decide, by with_unfolding_all decide⟩
  · unfold parseFace
    rw [h]
    rfl
  · unfold parseFace
    rw [h]
    rfl
  · unfold convRef
    rw [h]

/-- Witness for C7 at concrete face lines. -/
theorem claim_C7_witness :
    parseFace "f 2 3 4" = [convRef "2", convRef "3", convRef "4"] ∧
    convRef "5/12/3" = JSNum.num ((5 : ℚ) - 1) :=
  ⟨claim_C7_face_conversion_and_triangulation.1 "f 2 3 4" "2" "3" "4"
     (by with_unfolding_all decide),
   claim_C7_face_conversion_and_triangulation.2.2.1 "5/12/3" 5
     (by with_unfolding_all decide)⟩

/-- C10: a face with a reference count other than 4 — including 1, 2 or ≥ 5 —
is returned by `parseFace` as the converted references, unchanged, with no
error and no triangulation; `load` appends them as-is, so a 5-reference face
leaves `triangleIndices` with a length that is not a multiple of 3. -/
theorem claim_C10_non_quad_passthrough :
    (∀ (s : String) (toks : List String), splitWsTrim s = "f" :: toks →
      toks.length ≠ 4 → parseFace s = toks.map convRef) ∧
    (load "v 0 0 0\nv 1 0 0\nf 1 2 1 2 1").2 =
      [JSNum.num 0, JSNum.num 1, JSNum.num 0, JSNum.num 1, JSNum.num 0] ∧
    ¬(3 ∣ (load "v 0 0 0\nv 1 0 0\nf 1 2 1 2 1").2.length) := by
  refine ⟨fun s toks h hlen => ?_, by with_unfolding_all decide, ?_⟩
  · unfold parseFace
    rw [h]
    simp [hlen]
  · intro hdvd
    rw [show (load "v 0 0 0\nv 1 0 0\nf 1 2 1 2 1").2.length = 5 from by
      with_unfolding_all decide] at hdvd
    omega

/-- Witness for C10 at a concrete 5-reference face line. -/
theorem claim_C10_witness :
    parseFace "f 1 2 1 2 1" = ["1", "2", "1", "2", "1"].map convRef :=
  claim_C10_non_quad_passthrough.1 "f 1 2 1 2 1" ["1", "2", "1", "2", "1"]
    (by with_unfolding_all decide) (by decide)

end LoaderClaims

/-! ### C2: degenerate meshes -/

namespace OBJLoader

/-- Folding a function over `replicate` of a fixed point leaves the
accumulator unchanged. -/
theorem foldl_fix {α β : Type} (f : β → α → β) (b : β) (a : α) (h : f b a = b) :
    ∀ n, (List.replicate n a).foldl f b = b
  | 0 => rfl
  | n + 1 => by rw [List.replicate_succ, List.foldl_cons, h, foldl_fix f b a h n]

/-- Grouping `n` copies of one vertex triple recovers `n` copies of the
triple. -/
theorem toTriples_join_replicate (x y z : JSNum) :
    ∀ n, toTriples (List.flatten (List.replicate n [x, y, z])) = List.replicate n (x, y, z)
  | 0 => rfl
  | n + 1 => by
    rw [List.replicate_succ, List.flatten_cons]
    show toTriples (x :: y :: z :: List.flatten (List.replicate n [x, y, z])) = _
    rw [show toTriples (x :: y :: z :: List.flatten (List.replicate n [x, y, z])) =
      (x, y, z) :: toTriples (List.flatten (List.replicate n [x, y, z])) from rfl]
    rw [toTriples_join_replicate x y z n, List.replicate_succ]

/-- `flatMap` over a replicated element is a join of replicated images. -/
theorem flatMap_replicate {α β : Type} (f : α → List β) (a : α) :
    ∀ n, (List.replicate n a).flatMap f = List.flatten (List.replicate n (f a))
  | 0 => rfl
  | n + 1 => by
    rw [List.replicate_succ, List.flatMap_cons, List.replicate_succ, List.flatten_cons,
      flatMap_replicate f a n]

/-- Joining `n` copies of a 3-element constant list is `3·n` copies. -/
theorem join_replicate_three {α : Type} (v : α) :
    ∀ n, List.flatten (List.replicate n [v, v, v]) = List.replicate (3 * n) v
  | 0 => rfl
  | n + 1 => by
    rw [List.replicate_succ, List.flatten_cons, join_replicate_three v n]
    rw [show 3 * (n + 1) = 3 * n + 1 + 1 + 1 from by ring]
    rw [List.replicate_succ, List.replicate_succ, List.replicate_succ]
    rfl

/-- Normalizing a vertex array of `n+1` copies of one point: every span is 0,
so `range = 0` and every output coordinate is `0/0 = NaN`. -/
theorem normalizePhase_const (x y z : ℚ) (n : ℕ) :
    normalizePhase (List.flatten (List.replicate (n + 1) [JSNum.num x, JSNum.num y, JSNum.num z])) =
      List.replicate (3 * (n + 1)) JSNum.nan := by
  have hfix : (fun (p : Tri × Tri) t => (jsMin3 p.1 t, jsMax3 p.2 t))
      ((JSNum.num x, JSNum.num y, JSNum.num z), (JSNum.num x, JSNum.num y, JSNum.num z))
      (JSNum.num x, JSNum.num y, JSNum.num z) =
      ((JSNum.num x, JSNum.num y, JSNum.num z), (JSNum.num x, JSNum.num y, JSNum.num z)) := by
    simp [jsMin3, jsMax3, jsMin, jsMax]
  have hseed : (List.flatten (List.replicate (n + 1) [JSNum.num x, JSNum.num y, JSNum.num z])).getD 0 JSNum.nan = JSNum.num x ∧
      (List.flatten (List.replicate (n + 1) [JSNum.num x, JSNum.num y, JSNum.num z])).getD 1 JSNum.nan = JSNum.num y ∧
      (List.flatten (List.replicate (n + 1) [JSNum.num x, JSNum.num y, JSNum.num z])).getD 2 JSNum.nan = JSNum.num z := by
    rw [List.replicate_succ, List.flatten_cons]
    exact ⟨rfl, rfl, rfl⟩
  simp only [normalizePhase, hseed.1, hseed.2.1, hseed.2.2,
    toTriples_join_replicate (JSNum.num x) (JSNum.num y) (JSNum.num z) (n + 1)]
  rw [foldl_fix _ _ _ hfix (n + 1)]
  have hsub : jsSub (JSNum.num x) (JSNum.num x) = JSNum.num 0 := by simp [jsSub]
  have hsuby : jsSub (JSNum.num y) (JSNum.num y) = JSNum.num 0 := by simp [jsSub]
  have hsubz : jsSub (JSNum.num z) (JSNum.num z) = JSNum.num 0 := by simp [jsSub]
  simp only [hsub, hsuby, hsubz]
  have hmax : jsMax (jsMax (JSNum.num 0) (JSNum.num 0)) (JSNum.num 0) = JSNum.num 0 := by
    simp [jsMax]
  simp only [hmax]
  have hhr : jsDiv (JSNum.num 0) (JSNum.num 2) = JSNum.num 0 := by
    norm_num [jsDiv]
  simp only [hhr]
  have hout : ∀ a : ℚ,
      jsDiv (jsSub (JSNum.num a) (jsDiv (jsAdd (JSNum.num a) (JSNum.num a)) (JSNum.num 2)))
        (JSNum.num 0) = JSNum.nan := by
    intro a
    have h1 : jsAdd (JSNum.num a) (JSNum.num a) = JSNum.num (a + a) := rfl
    have h2 : jsDiv (JSNum.num (a + a)) (JSNum.num 2) = JSNum.num ((a + a) / 2) := by
      norm_num [jsDiv]
    have h3 : jsSub (JSNum.num a) (JSNum.num ((a + a) / 2)) = JSNum.num 0 := by
      have ha : a - (a + a) / 2 = 0 := by ring
      simp [jsSub, ha]
    rw [h1, h2, h3]
    simp [jsDiv]
  rw [flatMap_replicate]
  simp only [hout]
  exact join_replicate_three JSNum.nan (n + 1)

end OBJLoader

section C2Claims

open OBJLoader

/-- C2 counterexample: on an input whose two vertices coincide, `load` does
not fail with any error — it returns positions that are all `NaN` (the
division by the zero range); and on an input with no vertex record it also
does not fail — it returns empty positions.  No `DegenerateMeshError`
exists in the code. -/
theorem cex_C2_degenerate_returns_nan :
    load "v 1 2 3\nv 1 2 3" = (List.replicate 6 JSNum.nan, []) ∧
    load "" = ([], []) := by
  refine ⟨?_, ?_⟩ <;> with_unfolding_all decide

/-- C2 amended: `load` never raises an error on degenerate input: when no
line is a vertex record the returned positions are empty, and when the parsed
vertex array consists of `n+1` copies of a single point the returned positions
are `3·(n+1)` copies of `NaN`. -/
theorem claim_C2_amended_degenerate_no_error :
    (∀ text : String,
      (∀ l ∈ (splitOnChar '\n' text.data).map String.mk,
        startsWithCs (trimCs l.data) ['v', ' '] = false) →
      (load text).1 = []) ∧
    (∀ (x y z : ℚ) (n : ℕ) (text : String),
      (loadParse text).1 =
        List.flatten (List.replicate (n + 1) [JSNum.num x, JSNum.num y, JSNum.num z]) →
      (load text).1 = List.replicate (3 * (n + 1)) JSNum.nan) := by
  constructor
  · intro text hnov
    show normalizePhase (loadParse text).1 = []
    have h1 : (loadParse text).1 = [] := by
      rw [loadParse_eq]
      show (((splitOnChar '\n' text.data).map String.mk).flatMap vContrib) = []
      rw [List.flatMap_eq_nil_iff]
      intro l hl
      show (if startsWithCs (trimCs l.data) ['v', ' '] = true
        then parseVertex (String.mk (trimCs l.data)) else []) = []
      rw [hnov l hl]
      rfl
    rw [h1]
    rfl
  · intro x y z n text hconst
    show normalizePhase (loadParse text).1 = _
    rw [hconst]
    exact normalizePhase_const x y z n

/-- Witness for the amended C2: a vertex-free input and a constant two-vertex
input. -/
theorem claim_C2_witness :
    (load "usemtl a\nf 1 2 3").1 = [] ∧
    (load "v 1 2 3\nv 1 2 3").1 = List.replicate (3 * (1 + 1)) JSNum.nan :=
  ⟨claim_C2_amended_degenerate_no_error.1 "usemtl a\nf 1 2 3"
     (by with_unfolding_all decide),
   claim_C2_amended_degenerate_no_error.2 1 2 3 1 "v 1 2 3\nv 1 2 3"
     (by with_unfolding_all decide)⟩

end C2Claims

/-! ### C5: the normalization invariant, over the rational shadow -/

namespace OBJLoader

/-- A rational triple (one vertex). -/
abbrev TriQ := ℚ × ℚ × ℚ

/-- Rational mirror of `toTriples` for NaN-free vertex arrays (the padding
value is irrelevant: it is only reachable when the length is not a multiple
of 3, which the parser never produces). -/
def toTriplesQ : List ℚ → List TriQ
  | [] => []
  | [a] => [(a, 0, 0)]
  | [a, b] => [(a, b, 0)]
  | a :: b :: c :: rest => (a, b, c) :: toTriplesQ rest

/-- Componentwise rational minimum. -/
def qMin3 (p t : TriQ) : TriQ := (min p.1 t.1, min p.2.1 t.2.1, min p.2.2 t.2.2)

/-- Componentwise rational maximum. -/
def qMax3 (p t : TriQ) : TriQ := (max p.1 t.1, max p.2.1 t.2.1, max p.2.2 t.2.2)

/-- The min/max seed: the first vertex (`vertices[0..2]`). -/
def seedQ (qs : List ℚ) : TriQ := (qs.getD 0 0, qs.getD 1 0, qs.getD 2 0)

/-- Rational per-axis minimum of a vertex array, as the code's loop computes
it (seeded with the first vertex, folded over all triples). -/
def mnQ (qs : List ℚ) : TriQ := (toTriplesQ qs).foldl qMin3 (seedQ qs)

/-- Rational per-axis maximum of a vertex array. -/
def mxQ (qs : List ℚ) : TriQ := (toTriplesQ qs).foldl qMax3 (seedQ qs)

/-- The per-axis bounding-box center `(max+min)/2`. -/
def centerQ (qs : List ℚ) : TriQ :=
  (((mxQ qs).1 + (mnQ qs).1) / 2,
   ((mxQ qs).2.1 + (mnQ qs).2.1) / 2,
   ((mxQ qs).2.2 + (mnQ qs).2.2) / 2)

/-- The x-axis span `max - min`. -/
def spanX (qs : List ℚ) : ℚ := (mxQ qs).1 - (mnQ qs).1

/-- The y-axis span. -/
def spanY (qs : List ℚ) : ℚ := (mxQ qs).2.1 - (mnQ qs).2.1

/-- The z-axis span. -/
def spanZ (qs : List ℚ) : ℚ := (mxQ qs).2.2 - (mnQ qs).2.2

/-- `range`: the largest of the three spans. -/
def rangeQ (qs : List ℚ) : ℚ := max (max (spanX qs) (spanY qs)) (spanZ qs)

/-- Rational mirror of the normalization pass:
`coord ↦ (coord - center[axis]) / (range/2)`. -/
def normalizeQ (qs : List ℚ) : List ℚ :=
  (toTriplesQ qs).flatMap (fun t =>
    [(t.1 - (centerQ qs).1) / (rangeQ qs / 2),
     (t.2.1 - (centerQ qs).2.1) / (rangeQ qs / 2),
     (t.2.2 - (centerQ qs).2.2) / (rangeQ qs / 2)])

/-- Embedding of a rational triple into JS numbers. -/
def emT (t : TriQ) : Tri := (JSNum.num t.1, JSNum.num t.2.1, JSNum.num t.2.2)

/-- The paired min/max fold of the code splits into two independent folds. -/
theorem foldl_pair : ∀ (ts : List Tri) (p : Tri × Tri),
    ts.foldl (fun (p : Tri × Tri) t => (jsMin3 p.1 t, jsMax3 p.2 t)) p =
      (ts.foldl jsMin3 p.1, ts.foldl jsMax3 p.2)
  | [], _ => rfl
  | t :: ts, p => by
    rw [List.foldl_cons, List.foldl_cons, List.foldl_cons, foldl_pair ts]

/-- Grouping a NaN-free array whose length is a multiple of 3 commutes with
the embedding. -/
theorem toTriples_map_num : ∀ (qs : List ℚ), qs.length % 3 = 0 →
    toTriples (qs.map JSNum.num) = (toTriplesQ qs).map emT
  | [], _ => rfl
  | [_], h => by simp at h
  | [_, _], h => by simp at h
  | a :: b :: c :: rest, h => by
    show toTriples (JSNum.num a :: JSNum.num b :: JSNum.num c :: rest.map JSNum.num) = _
    rw [show toTriples (JSNum.num a :: JSNum.num b :: JSNum.num c :: rest.map JSNum.num) =
      (JSNum.num a, JSNum.num b, JSNum.num c) :: toTriples (rest.map JSNum.num) from rfl]
    rw [toTriples_map_num rest (by simp at h; omega)]
    rfl

/-- The JS min fold on embedded triples computes the embedded rational fold. -/
theorem foldl_jsMin3_map : ∀ (ts : List TriQ) (s : TriQ),
    (ts.map emT).foldl jsMin3 (emT s) = emT (ts.foldl qMin3 s)
  | [], _ => rfl
  | t :: ts, s => by
    rw [List.map_cons, List.foldl_cons, List.foldl_cons,
      show jsMin3 (emT s) (emT t) = emT (qMin3 s t) from rfl, foldl_jsMin3_map ts (qMin3 s t)]

/-- The JS max fold on embedded triples computes the embedded rational fold. -/
theorem foldl_jsMax3_map : ∀ (ts : List TriQ) (s : TriQ),
    (ts.map emT).foldl jsMax3 (emT s) = emT (ts.foldl qMax3 s)
  | [], _ => rfl
  | t :: ts, s => by
    rw [List.map_cons, List.foldl_cons, List.foldl_cons,
      show jsMax3 (emT s) (emT t) = emT (qMax3 s t) from rfl, foldl_jsMax3_map ts (qMax3 s t)]

end OBJLoader

namespace OBJLoader

/-- Reading an in-range element of an embedded array yields the embedded
element. -/
theorem getD_map_num (qs : List ℚ) (i : ℕ) (h : i < qs.length) :
    (qs.map JSNum.num).getD i JSNum.nan = JSNum.num (qs.getD i 0) := by
  rw [List.getD_eq_getElem?_getD, List.getD_eq_getElem?_getD, List.getElem?_map,
    List.getElem?_eq_getElem h]
  rfl

/-- Composing `flatMap` with a preceding `map`. -/
theorem flatMap_after_map {α β γ : Type} (f : α → β) (g : β → List γ) :
    ∀ l : List α, (l.map f).flatMap g = l.flatMap (fun x => g (f x))
  | [] => rfl
  | a :: l => by
    rw [List.map_cons, List.flatMap_cons, List.flatMap_cons, flatMap_after_map f g l]

/-- Pulling the embedding out of a triple-producing `flatMap`. -/
theorem map_num_flatMap3 (f1 f2 f3 : TriQ → ℚ) : ∀ l : List TriQ,
    l.flatMap (fun t => [JSNum.num (f1 t), JSNum.num (f2 t), JSNum.num (f3 t)]) =
      (l.flatMap (fun t => [f1 t, f2 t, f3 t])).map JSNum.num
  | [] => rfl
  | t :: l => by
    rw [List.flatMap_cons, List.flatMap_cons, List.map_append,
      map_num_flatMap3 f1 f2 f3 l]
    rfl

/-- The normalization pass commutes with the rational embedding for NaN-free
vertex arrays of nonzero range: the JS computation is exactly the rational
one. -/
theorem normalizePhase_map_num (qs : List ℚ) (h3 : qs.length % 3 = 0)
    (hne : qs ≠ []) (hrne : rangeQ qs ≠ 0) :
    normalizePhase (qs.map JSNum.num) = (normalizeQ qs).map JSNum.num := by
  have hlen : 3 ≤ qs.length := by
    rcases qs with _ | ⟨a, qs⟩
    · exact absurd rfl hne
    · simp only [List.length_cons] at h3 ⊢
      omega
  have hg0 := getD_map_num qs 0 (by omega)
  have hg1 := getD_map_num qs 1 (by omega)
  have hg2 := getD_map_num qs 2 (by omega)
  have hadd : ∀ a b : ℚ, jsAdd (JSNum.num a) (JSNum.num b) = JSNum.num (a + b) :=
    fun _ _ => rfl
  have hsub : ∀ a b : ℚ, jsSub (JSNum.num a) (JSNum.num b) = JSNum.num (a - b) :=
    fun _ _ => rfl
  have hmaxn : ∀ a b : ℚ, jsMax (JSNum.num a) (JSNum.num b) = JSNum.num (max a b) :=
    fun _ _ => rfl
  have hdiv2 : ∀ a : ℚ, jsDiv (JSNum.num a) (JSNum.num 2) = JSNum.num (a / 2) := by
    intro a
    norm_num [jsDiv]
  have hhalf : rangeQ qs / 2 ≠ 0 := by
    intro h
    exact hrne (by field_simp at h; exact h)
  have hdivr : ∀ a : ℚ, jsDiv (JSNum.num a) (JSNum.num (rangeQ qs / 2)) =
      JSNum.num (a / (rangeQ qs / 2)) := by
    intro a
    rw [jsDiv]
    simp [hhalf]
  simp only [normalizePhase, hg0, hg1, hg2, toTriples_map_num qs h3, foldl_pair]
  rw [show (JSNum.num (qs.getD 0 0), JSNum.num (qs.getD 1 0), JSNum.num (qs.getD 2 0)) =
    emT (seedQ qs) from rfl]
  rw [foldl_jsMin3_map, foldl_jsMax3_map]
  rw [show (toTriplesQ qs).foldl qMin3 (seedQ qs) = mnQ qs from rfl,
    show (toTriplesQ qs).foldl qMax3 (seedQ qs) = mxQ qs from rfl]
  simp only [emT, hadd, hsub, hmaxn, hdiv2]
  rw [show max (max ((mxQ qs).1 - (mnQ qs).1) ((mxQ qs).2.1 - (mnQ qs).2.1))
    ((mxQ qs).2.2 - (mnQ qs).2.2) = rangeQ qs from rfl]
  rw [flatMap_after_map]
  simp only [emT, hsub, hdivr]
  rw [map_num_flatMap3 (fun t => (t.1 - ((mxQ qs).1 + (mnQ qs).1) / 2) / (rangeQ qs / 2))
    (fun t => (t.2.1 - ((mxQ qs).2.1 + (mnQ qs).2.1) / 2) / (rangeQ qs / 2))
    (fun t => (t.2.2 - ((mxQ qs).2.2 + (mnQ qs).2.2) / 2) / (rangeQ qs / 2))]
  rfl

end OBJLoader

namespace OBJLoader

/-- A positive-scale affine map commutes with the running minimum. -/
theorem foldl_min_affine (c k : ℚ) (hk : 0 < k) :
    ∀ (l : List ℚ) (a : ℚ),
      (l.map (fun x => (x - c) / k)).foldl min ((a - c) / k) = (l.foldl min a - c) / k
  | [], _ => rfl
  | q :: l, a => by
    rw [List.map_cons, List.foldl_cons, List.foldl_cons, min_div_div_right hk.le,
      min_sub_sub_right, foldl_min_affine c k hk l (min a q)]

/-- A positive-scale affine map commutes with the running maximum. -/
theorem foldl_max_affine (c k : ℚ) (hk : 0 < k) :
    ∀ (l : List ℚ) (a : ℚ),
      (l.map (fun x => (x - c) / k)).foldl max ((a - c) / k) = (l.foldl max a - c) / k
  | [], _ => rfl
  | q :: l, a => by
    rw [List.map_cons, List.foldl_cons, List.foldl_cons, max_div_div_right hk.le,
      max_sub_sub_right, foldl_max_affine c k hk l (max a q)]

/-- The triple min fold projects to per-axis scalar folds. -/
theorem foldl_qMin3_proj : ∀ (ts : List TriQ) (s : TriQ),
    (ts.foldl qMin3 s).1 = (ts.map (fun t => t.1)).foldl min s.1 ∧
    (ts.foldl qMin3 s).2.1 = (ts.map (fun t => t.2.1)).foldl min s.2.1 ∧
    (ts.foldl qMin3 s).2.2 = (ts.map (fun t => t.2.2)).foldl min s.2.2
  | [], _ => ⟨rfl, rfl, rfl⟩
  | t :: ts, s => by
    have ih := foldl_qMin3_proj ts (qMin3 s t)
    simpa [qMin3] using ih

/-- The triple max fold projects to per-axis scalar folds. -/
theorem foldl_qMax3_proj : ∀ (ts : List TriQ) (s : TriQ),
    (ts.foldl qMax3 s).1 = (ts.map (fun t => t.1)).foldl max s.1 ∧
    (ts.foldl qMax3 s).2.1 = (ts.map (fun t => t.2.1)).foldl max s.2.1 ∧
    (ts.foldl qMax3 s).2.2 = (ts.map (fun t => t.2.2)).foldl max s.2.2
  | [], _ => ⟨rfl, rfl, rfl⟩
  | t :: ts, s => by
    have ih := foldl_qMax3_proj ts (qMax3 s t)
    simpa [qMax3] using ih

/-- The running minimum never exceeds its initial value. -/
theorem foldl_min_le_init : ∀ (l : List ℚ) (a : ℚ), l.foldl min a ≤ a
  | [], a => le_refl a
  | q :: l, a => (foldl_min_le_init l (min a q)).trans (min_le_left a q)

/-- The running maximum is at least its initial value. -/
theorem init_le_foldl_max : ∀ (l : List ℚ) (a : ℚ), a ≤ l.foldl max a
  | [], a => le_refl a
  | q :: l, a => (le_max_left a q).trans (init_le_foldl_max l (max a q))

/-- Per-axis `min ≤ max` for the code's seeded folds. -/
theorem mnQ_le_mxQ (qs : List ℚ) :
    (mnQ qs).1 ≤ (mxQ qs).1 ∧ (mnQ qs).2.1 ≤ (mxQ qs).2.1 ∧
    (mnQ qs).2.2 ≤ (mxQ qs).2.2 := by
  refine ⟨?_, ?_, ?_⟩
  · rw [mnQ, mxQ, (foldl_qMin3_proj (toTriplesQ qs) (seedQ qs)).1,
      (foldl_qMax3_proj (toTriplesQ qs) (seedQ qs)).1]
    exact (foldl_min_le_init _ _).trans (init_le_foldl_max _ _)
  · rw [mnQ, mxQ, (foldl_qMin3_proj (toTriplesQ qs) (seedQ qs)).2.1,
      (foldl_qMax3_proj (toTriplesQ qs) (seedQ qs)).2.1]
    exact (foldl_min_le_init _ _).trans (init_le_foldl_max _ _)
  · rw [mnQ, mxQ, (foldl_qMin3_proj (toTriplesQ qs) (seedQ qs)).2.2,
      (foldl_qMax3_proj (toTriplesQ qs) (seedQ qs)).2.2]
    exact (foldl_min_le_init _ _).trans (init_le_foldl_max _ _)

/-- The range is nonnegative. -/
theorem rangeQ_nonneg (qs : List ℚ) : 0 ≤ rangeQ qs :=
  le_trans (sub_nonneg.mpr (mnQ_le_mxQ qs).1)
    (le_trans (le_max_left _ _) (le_max_left _ _))

/-- Grouping a triple-producing `flatMap` recovers the triples. -/
theorem toTriplesQ_flatMap3 (g1 g2 g3 : TriQ → ℚ) : ∀ l : List TriQ,
    toTriplesQ (l.flatMap (fun t => [g1 t, g2 t, g3 t])) =
      l.map (fun t => (g1 t, g2 t, g3 t))
  | [] => rfl
  | t :: l => by
    rw [List.flatMap_cons]
    show toTriplesQ (g1 t :: g2 t :: g3 t :: l.flatMap (fun t => [g1 t, g2 t, g3 t])) = _
    rw [show toTriplesQ (g1 t :: g2 t :: g3 t :: l.flatMap (fun t => [g1 t, g2 t, g3 t])) =
      (g1 t, g2 t, g3 t) :: toTriplesQ (l.flatMap (fun t => [g1 t, g2 t, g3 t])) from rfl]
    rw [toTriplesQ_flatMap3 g1 g2 g3 l, List.map_cons]

end OBJLoader

namespace OBJLoader

/-- The triple min fold of affinely rescaled vertices (positive scale) is the
rescaled triple min fold. -/
theorem foldl_min_out (cx cy cz k : ℚ) (hk : 0 < k) :
    ∀ (ts : List TriQ) (s : TriQ),
    (ts.map (fun t => ((t.1 - cx) / k, (t.2.1 - cy) / k, (t.2.2 - cz) / k))).foldl qMin3
      ((s.1 - cx) / k, (s.2.1 - cy) / k, (s.2.2 - cz) / k) =
      (((ts.foldl qMin3 s).1 - cx) / k, ((ts.foldl qMin3 s).2.1 - cy) / k,
       ((ts.foldl qMin3 s).2.2 - cz) / k)
  | [], _ => rfl
  | t :: ts, s => by
    rw [List.map_cons, List.foldl_cons, List.foldl_cons]
    rw [show qMin3 ((s.1 - cx) / k, (s.2.1 - cy) / k, (s.2.2 - cz) / k)
        ((t.1 - cx) / k, (t.2.1 - cy) / k, (t.2.2 - cz) / k) =
        (((qMin3 s t).1 - cx) / k, ((qMin3 s t).2.1 - cy) / k, ((qMin3 s t).2.2 - cz) / k) from by
      simp [qMin3, min_div_div_right hk.le, min_sub_sub_right]]
    exact foldl_min_out cx cy cz k hk ts (qMin3 s t)

/-- The triple max fold of affinely rescaled vertices (positive scale) is the
rescaled triple max fold. -/
theorem foldl_max_out (cx cy cz k : ℚ) (hk : 0 < k) :
    ∀ (ts : List TriQ) (s : TriQ),
    (ts.map (fun t => ((t.1 - cx) / k, (t.2.1 - cy) / k, (t.2.2 - cz) / k))).foldl qMax3
      ((s.1 - cx) / k, (s.2.1 - cy) / k, (s.2.2 - cz) / k) =
      (((ts.foldl qMax3 s).1 - cx) / k, ((ts.foldl qMax3 s).2.1 - cy) / k,
       ((ts.foldl qMax3 s).2.2 - cz) / k)
  | [], _ => rfl
  | t :: ts, s => by
    rw [List.map_cons, List.foldl_cons, List.foldl_cons]
    rw [show qMax3 ((s.1 - cx) / k, (s.2.1 - cy) / k, (s.2.2 - cz) / k)
        ((t.1 - cx) / k, (t.2.1 - cy) / k, (t.2.2 - cz) / k) =
        (((qMax3 s t).1 - cx) / k, ((qMax3 s t).2.1 - cy) / k, ((qMax3 s t).2.2 - cz) / k) from by
      simp [qMax3, max_div_div_right hk.le, max_sub_sub_right]]
    exact foldl_max_out cx cy cz k hk ts (qMax3 s t)

/-- The code's min/max observers of the normalized output are the affinely
rescaled min/max of the input. -/
theorem normalizeQ_minmax (qs : List ℚ) (h3 : qs.length % 3 = 0) (hne : qs ≠ [])
    (hrpos : 0 < rangeQ qs) :
    mnQ (normalizeQ qs) =
      (((mnQ qs).1 - (centerQ qs).1) / (rangeQ qs / 2),
       ((mnQ qs).2.1 - (centerQ qs).2.1) / (rangeQ qs / 2),
       ((mnQ qs).2.2 - (centerQ qs).2.2) / (rangeQ qs / 2)) ∧
    mxQ (normalizeQ qs) =
      (((mxQ qs).1 - (centerQ qs).1) / (rangeQ qs / 2),
       ((mxQ qs).2.1 - (centerQ qs).2.1) / (rangeQ qs / 2),
       ((mxQ qs).2.2 - (centerQ qs).2.2) / (rangeQ qs / 2)) := by
  have hR : 0 < rangeQ qs / 2 := div_pos hrpos two_pos
  have htq : toTriplesQ (normalizeQ qs) =
      (toTriplesQ qs).map (fun t =>
        ((t.1 - (centerQ qs).1) / (rangeQ qs / 2),
         (t.2.1 - (centerQ qs).2.1) / (rangeQ qs / 2),
         (t.2.2 - (centerQ qs).2.2) / (rangeQ qs / 2))) := by
    rw [normalizeQ]
    exact toTriplesQ_flatMap3 _ _ _ _
  have hseed : seedQ (normalizeQ qs) =
      (((seedQ qs).1 - (centerQ qs).1) / (rangeQ qs / 2),
       ((seedQ qs).2.1 - (centerQ qs).2.1) / (rangeQ qs / 2),
       ((seedQ qs).2.2 - (centerQ qs).2.2) / (rangeQ qs / 2)) := by
    rcases qs with _ | ⟨a, rest1⟩
    · exact absurd rfl hne
    rcases rest1 with _ | ⟨b, rest2⟩
    · simp at h3
    rcases rest2 with _ | ⟨c, rest⟩
    · simp at h3
    rfl
  constructor
  · unfold mnQ
    rw [htq, hseed]
    exact foldl_min_out _ _ _ _ hR (toTriplesQ qs) (seedQ qs)
  · unfold mxQ
    rw [htq, hseed]
    exact foldl_max_out _ _ _ _ hR (toTriplesQ qs) (seedQ qs)

/-- The normalization invariants of the rational pass: the output bounding box
is centered at the origin, every span is the input span divided by the common
factor `range/2`, and the output range (the span of the longest axis) is
exactly 2. -/
theorem normalizeQ_props (qs : List ℚ) (h3 : qs.length % 3 = 0) (hne : qs ≠ [])
    (hrpos : 0 < rangeQ qs) :
    centerQ (normalizeQ qs) = (0, 0, 0) ∧
    spanX (normalizeQ qs) = spanX qs / (rangeQ qs / 2) ∧
    spanY (normalizeQ qs) = spanY qs / (rangeQ qs / 2) ∧
    spanZ (normalizeQ qs) = spanZ qs / (rangeQ qs / 2) ∧
    rangeQ (normalizeQ qs) = 2 := by
  obtain ⟨hmn, hmx⟩ := normalizeQ_minmax qs h3 hne hrpos
  have hRne : rangeQ qs / 2 ≠ 0 := (div_pos hrpos two_pos).ne'
  have hrne : rangeQ qs ≠ 0 := hrpos.ne'
  have hsX : spanX (normalizeQ qs) = spanX qs / (rangeQ qs / 2) := by
    rw [spanX, hmn, hmx]
    show (((mxQ qs).1 - (centerQ qs).1) / (rangeQ qs / 2)) -
      (((mnQ qs).1 - (centerQ qs).1) / (rangeQ qs / 2)) = _
    rw [spanX]
    field_simp
    ring
  have hsY : spanY (normalizeQ qs) = spanY qs / (rangeQ qs / 2) := by
    rw [spanY, hmn, hmx]
    show (((mxQ qs).2.1 - (centerQ qs).2.1) / (rangeQ qs / 2)) -
      (((mnQ qs).2.1 - (centerQ qs).2.1) / (rangeQ qs / 2)) = _
    rw [spanY]
    field_simp
    ring
  have hsZ : spanZ (normalizeQ qs) = spanZ qs / (rangeQ qs / 2) := by
    rw [spanZ, hmn, hmx]
    show (((mxQ qs).2.2 - (centerQ qs).2.2) / (rangeQ qs / 2)) -
      (((mnQ qs).2.2 - (centerQ qs).2.2) / (rangeQ qs / 2)) = _
    rw [spanZ]
    field_simp
    ring
  refine ⟨?_, hsX, hsY, hsZ, ?_⟩
  · rw [centerQ, hmn, hmx]
    have h1 : (((mxQ qs).1 - (centerQ qs).1) / (rangeQ qs / 2) +
        ((mnQ qs).1 - (centerQ qs).1) / (rangeQ qs / 2)) / 2 = 0 := by
      rw [centerQ]
      field_simp
      ring
    have h2 : (((mxQ qs).2.1 - (centerQ qs).2.1) / (rangeQ qs / 2) +
        ((mnQ qs).2.1 - (centerQ qs).2.1) / (rangeQ qs / 2)) / 2 = 0 := by
      rw [centerQ]
      field_simp
      ring
    have h3c : (((mxQ qs).2.2 - (centerQ qs).2.2) / (rangeQ qs / 2) +
        ((mnQ qs).2.2 - (centerQ qs).2.2) / (rangeQ qs / 2)) / 2 = 0 := by
      rw [centerQ]
      field_simp
      ring
    simp only [Prod.mk.injEq]
    exact ⟨h1, h2, h3c⟩
  · rw [rangeQ, hsX, hsY, hsZ]
    rw [max_div_div_right (le_of_lt (div_pos hrpos two_pos)),
      max_div_div_right (le_of_lt (div_pos hrpos two_pos))]
    rw [show max (max (spanX qs) (spanY qs)) (spanZ qs) = rangeQ qs from rfl]
    field_simp

end OBJLoader

section C5Claim

open OBJLoader

/-- C5: for every input whose parsed vertex array is a nonempty NaN-free
rational list of nonzero range, `load` returns exactly the rationally
normalized positions, and these satisfy: the output bounding-box center is the
origin on all three axes, every axis is divided by the same uniform factor
`range/2`, and the span of the longest original axis (the output range) is
exactly 2.  (Exact rational arithmetic stands in for floating point, so
"exactly 2" holds with no tolerance.) -/
theorem claim_C5_normalization (text : String) (qs : List ℚ)
    (hq : (loadParse text).1 = qs.map JSNum.num)
    (hne : qs ≠ []) (hrne : rangeQ qs ≠ 0) :
    (load text).1 = (normalizeQ qs).map JSNum.num ∧
    centerQ (normalizeQ qs) = (0, 0, 0) ∧
    spanX (normalizeQ qs) = spanX qs / (rangeQ qs / 2) ∧
    spanY (normalizeQ qs) = spanY qs / (rangeQ qs / 2) ∧
    spanZ (normalizeQ qs) = spanZ qs / (rangeQ qs / 2) ∧
    rangeQ (normalizeQ qs) = 2 ∧
    (spanX qs = rangeQ qs → spanX (normalizeQ qs) = 2) ∧
    (spanY qs = rangeQ qs → spanY (normalizeQ qs) = 2) ∧
    (spanZ qs = rangeQ qs → spanZ (normalizeQ qs) = 2) := by
  have h3 : qs.length % 3 = 0 := by
    have := loadParse_fst_length_mod3 text
    rw [hq, List.length_map] at this
    exact this
  have hrpos : 0 < rangeQ qs := lt_of_le_of_ne (rangeQ_nonneg qs) (Ne.symm hrne)
  obtain ⟨hc, hsX, hsY, hsZ, hro⟩ := normalizeQ_props qs h3 hne hrpos
  have hRne : rangeQ qs / 2 ≠ 0 := (div_pos hrpos two_pos).ne'
  refine ⟨?_, hc, hsX, hsY, hsZ, hro, ?_, ?_, ?_⟩
  · show normalizePhase (loadParse text).1 = _
    rw [hq]
    exact normalizePhase_map_num qs h3 hne hrne
  · intro h
    rw [hsX, h]
    field_simp
  · intro h
    rw [hsY, h]
    field_simp
  · intro h
    rw [hsZ, h]
    field_simp

/-- Witness for C5 at a concrete two-vertex mesh of range 2. -/
theorem claim_C5_witness :
    (load "v 0 0 0\nv 2 0 0").1 = (normalizeQ [0, 0, 0, 2, 0, 0]).map JSNum.num ∧
    centerQ (normalizeQ [0, 0, 0, 2, 0, 0]) = (0, 0, 0) ∧
    rangeQ (normalizeQ [0, 0, 0, 2, 0, 0]) = 2 := by
  have h := claim_C5_normalization "v 0 0 0\nv 2 0 0" [0, 0, 0, 2, 0, 0]
    (by with_unfolding_all decide) (List.cons_ne_nil _ _) (by with_unfolding_all decide)
  exact ⟨h.1, h.2.1, h.2.2.2.2.2.1⟩

end C5Claim
